import Mathlib

/-!
Verification of the flatnotes local-first synchronization engine.

The definitions below are a shallow embedding of the TypeScript sources:
`src/types.ts` (data model), `src/utils/storage.ts` (the sync engine and
the localStorage wrapper), `src/utils/api.ts` (the RemoteStore client)
and the state-update handlers of `src/App.tsx`.

Modelling conventions:
* JS `Date` values are modelled by their millisecond timestamps (`Int`).
  `JSON.stringify` serializes a `Date` through `Date.toISOString`, and the
  loaders revive with `new Date(isoString)`; at millisecond precision this
  host-runtime round-trip is exact, so the wire form of a date is modelled
  by `IsoInstant`, a wrapper carrying the same millisecond value (the
  information content of the ISO-8601 string).
* `localStorage` is modelled as `Option StoredData` for the single
  `flatnotes-data` key: `setItem` replaces the whole value, `getItem`
  returns the stored value or nothing.
* Network calls are modelled by recording the requests that were issued
  (`RemoteCall`) together with a boolean oracle saying whether the awaited
  calls succeeded; a thrown/rejected promise is an `Except.error`.
* Timers are modelled by their deadlines: the debounce timer of the push
  path is an `Option Int` field of the engine state.
-/

namespace Flatnotes

/-- Attachment record, from `src/types.ts`. -/
structure Attachment where
  id : String
  name : String
  type : String
  size : Nat
  url : String
deriving Repr, DecidableEq

/-- Note record, from `src/types.ts`; `createdAt`/`updatedAt` are JS `Date`
values modelled as millisecond timestamps. -/
structure Note where
  id : String
  title : String
  content : String
  tags : List String
  category : String
  attachments : List Attachment
  order : Int
  createdAt : Int
  updatedAt : Int
deriving Repr, DecidableEq

/-- Category record, from `src/types.ts`. -/
structure Category where
  id : String
  name : String
  color : String
  order : Int
deriving Repr, DecidableEq

/-- Wire form of a JS `Date`: the millisecond content of its ISO-8601
rendering produced by `Date.toISOString` (which is injective on dates and
inverted by `new Date` at millisecond precision — host-runtime behavior,
not repository code). -/
structure IsoInstant where
  millis : Int
deriving Repr, DecidableEq

/-- Wire form of a `Note` as it sits in JSON (localStorage or HTTP body):
the date fields are ISO strings. -/
structure StoredNote where
  id : String
  title : String
  content : String
  tags : List String
  category : String
  attachments : List Attachment
  order : Int
  createdAt : IsoInstant
  updatedAt : IsoInstant
deriving Repr, DecidableEq

/-- Partial application state, the argument/result type of
`saveData`/`loadData` (`Partial<AppState>` restricted to the fields the
storage layer persists). A `none` field is an absent JSON field. -/
structure PartialAppState where
  notes : Option (List Note) := none
  categories : Option (List Category) := none
  selectedNoteId : Option (Option String) := none
  selectedCategory : Option (Option String) := none
deriving Repr, DecidableEq

/-- JSON value stored under the `flatnotes-data` key. -/
structure StoredData where
  notes : Option (List StoredNote) := none
  categories : Option (List Category) := none
  selectedNoteId : Option (Option String) := none
  selectedCategory : Option (Option String) := none
deriving Repr, DecidableEq

/-- Serialization of one note performed by `JSON.stringify` (dates become
their ISO strings). -/
def serializeNote (n : Note) : StoredNote :=
  { id := n.id, title := n.title, content := n.content, tags := n.tags
  , category := n.category, attachments := n.attachments, order := n.order
  , createdAt := ⟨n.createdAt⟩, updatedAt := ⟨n.updatedAt⟩ }

/-- Date revival done by the loaders:
`{ ...note, createdAt: new Date(note.createdAt), updatedAt: new Date(note.updatedAt) }`. -/
def reviveNote (s : StoredNote) : Note :=
  { id := s.id, title := s.title, content := s.content, tags := s.tags
  , category := s.category, attachments := s.attachments, order := s.order
  , createdAt := s.createdAt.millis, updatedAt := s.updatedAt.millis }

/-- Serialization of a partial state by `JSON.stringify` in
`saveDataToLocalStorage`. -/
def serializeData (d : PartialAppState) : StoredData :=
  { notes := d.notes.map (·.map serializeNote)
  , categories := d.categories
  , selectedNoteId := d.selectedNoteId
  , selectedCategory := d.selectedCategory }

/-- Content of `localStorage` at the `flatnotes-data` key. -/
abbrev LocalStore := Option StoredData

/-- Embedding of `loadDataFromLocalStorage` (`src/utils/storage.ts`):
read the key, `JSON.parse`, and revive the dates of `parsed.notes` when
that field is present; an absent key yields `{}`. -/
def loadDataFromLocalStorage (store : LocalStore) : PartialAppState :=
  match store with
  | none => {}
  | some s =>
    { notes := s.notes.map (·.map reviveNote)
    , categories := s.categories
    , selectedNoteId := s.selectedNoteId
    , selectedCategory := s.selectedCategory }

/-- Embedding of `saveDataToLocalStorage` (`src/utils/storage.ts`):
`localStorage.setItem(STORAGE_KEY, JSON.stringify(data))`, a whole-key
replacement of the stored value. -/
def saveDataToLocalStorage (data : PartialAppState) (_store : LocalStore) : LocalStore :=
  some (serializeData data)

/-! Sync engine (`src/utils/storage.ts`): module-level state, push path. -/

namespace SYNC_CONFIG

/-- 30 seconds: push at once if the last sync is older than this. -/
def AUTO_SYNC_INTERVAL : Int := 30000

/-- 5 seconds: debounce delay of the deferred push. -/
def FORCE_SYNC_DELAY : Int := 5000

/-- Threshold of accumulated changes that forces an immediate push. -/
def MAX_PENDING_CHANGES : Nat := 10

/-- 5 minutes: period of the remote data-update check. -/
def DATA_CHECK_INTERVAL : Int := 300000

end SYNC_CONFIG

/-- Module-level mutable state of `src/utils/storage.ts`:
`useServerStorage`, `isOnline`, `pendingChanges`, `lastSyncTime` and the
debounce timer `forceSyncTimer` (modelled by its deadline when armed). -/
structure SyncState where
  useServerStorage : Bool
  isOnline : Bool
  pendingChanges : Nat
  lastSyncTime : Int
  forceSyncTimer : Option Int
deriving Repr, DecidableEq

/-- Requests the engine issues against the RemoteStore. -/
inductive RemoteCall where
  | saveNotes (notes : List Note)
  | saveCategories (categories : List Category)
deriving Repr, DecidableEq

/-- Errors surfaced by the engine (rejected promises). -/
inductive SyncError where
  | notRemoteMode
  | offline
  | pushFailed
deriving Repr, DecidableEq

/-- Result of running `syncToServer`: the new engine state, the
RemoteStore requests that were issued, and whether the promise resolved
or rejected. -/
structure SyncResult where
  state : SyncState
  calls : List RemoteCall
  result : Except SyncError Unit
deriving Repr

/-- Embedding of `syncToServer` (`src/utils/storage.ts`): no-op unless in
server mode and online; otherwise read the latest data back from
localStorage, push the notes collection when present and the categories
collection when present (`Promise.all`), and on success reset
`pendingChanges` to 0 and stamp `lastSyncTime`; on failure leave the
counters untouched and rethrow. `apiOk` is the oracle for whether the
awaited RemoteStore calls succeed; `Promise.all` of an empty request list
always resolves. -/
def syncToServer (st : SyncState) (store : LocalStore) (now : Int) (apiOk : Bool) :
    SyncResult :=
  if !st.useServerStorage || !st.isOnline then
    { state := st, calls := [], result := .ok () }
  else
    let localData := loadDataFromLocalStorage store
    let calls :=
      (match localData.notes with
       | some ns => [RemoteCall.saveNotes ns]
       | none => []) ++
      (match localData.categories with
       | some cs => [RemoteCall.saveCategories cs]
       | none => [])
    if apiOk || calls.isEmpty then
      { state := { st with pendingChanges := 0, lastSyncTime := now }
      , calls := calls, result := .ok () }
    else
      { state := st, calls := calls, result := .error .pushFailed }

/-- Result of running `saveData`: new engine state, new localStorage
content, requests issued, and the promise outcome. -/
structure SaveResult where
  state : SyncState
  store : LocalStore
  calls : List RemoteCall
  result : Except SyncError Unit
deriving Repr

/-- Embedding of `saveData` (`src/utils/storage.ts`): always write to
localStorage first; then, in server mode while online, increment
`pendingChanges`, clear the debounce timer, push at once when
`pendingChanges >= MAX_PENDING_CHANGES` or `now - lastSyncTime >
AUTO_SYNC_INTERVAL` (awaiting `syncToServer`, whose rejection propagates),
and otherwise re-arm the 5s debounce timer. In server mode while offline
the branch is empty; in local mode nothing further happens. -/
def saveData (data : PartialAppState) (st : SyncState) (store : LocalStore)
    (now : Int) (apiOk : Bool) : SaveResult :=
  let store' := saveDataToLocalStorage data store
  if st.useServerStorage && st.isOnline then
    let st1 : SyncState :=
      { st with pendingChanges := st.pendingChanges + 1, forceSyncTimer := none }
    let shouldSyncNow :=
      decide (st1.pendingChanges ≥ SYNC_CONFIG.MAX_PENDING_CHANGES) ||
      decide (now - st.lastSyncTime > SYNC_CONFIG.AUTO_SYNC_INTERVAL)
    if shouldSyncNow then
      let r := syncToServer st1 store' now apiOk
      { state := r.state, store := store', calls := r.calls, result := r.result }
    else
      { state := { st1 with forceSyncTimer := some (now + SYNC_CONFIG.FORCE_SYNC_DELAY) }
      , store := store', calls := [], result := .ok () }
  else
    { state := st, store := store', calls := [], result := .ok () }

/-- Embedding of the `online` listener installed by `setupNetworkListeners`
(`src/utils/storage.ts`): set `isOnline := true` and, when
`pendingChanges > 0`, schedule a `syncToServer` 1000ms later. The boolean
of the result records whether that delayed push was scheduled. -/
def handleOnlineEvent (st : SyncState) : SyncState × Bool :=
  let st' := { st with isOnline := true }
  (st', decide (st'.pendingChanges > 0))

/-- Embedding of the `offline` listener (`src/utils/storage.ts`). -/
def handleOfflineEvent (st : SyncState) : SyncState :=
  { st with isOnline := false }

/-- Delay before the reconnect push fires (`setTimeout(..., 1000)`). -/
def RECONNECT_SYNC_DELAY : Int := 1000

/-- Embedding of `forceSyncToServer` (`src/utils/storage.ts`): throw when
not in server mode, throw when offline, otherwise `await syncToServer()`
(any push failure propagates to the caller). -/
def forceSyncToServer (st : SyncState) (store : LocalStore) (now : Int)
    (apiOk : Bool) : SyncResult :=
  if !st.useServerStorage then
    { state := st, calls := [], result := .error .notRemoteMode }
  else if !st.isOnline then
    { state := st, calls := [], result := .error .offline }
  else
    syncToServer st store now apiOk

/-- Result of running `loadData`: the (possibly downgraded) engine state
and the loaded partial application state. -/
structure LoadResult where
  state : SyncState
  data : PartialAppState
deriving Repr

/-- Embedding of `loadData` (`src/utils/storage.ts`): in server mode,
fetch notes and categories from the RemoteStore and revive the note
dates; when that fetch fails, permanently downgrade to local mode and
fall back to localStorage. In local mode, read localStorage directly. -/
def loadData (st : SyncState) (store : LocalStore)
    (serverNotes : List StoredNote) (serverCategories : List Category)
    (fetchOk : Bool) : LoadResult :=
  if st.useServerStorage then
    if fetchOk then
      { state := st
      , data := { notes := some (serverNotes.map reviveNote)
                , categories := some serverCategories } }
    else
      { state := { st with useServerStorage := false }
      , data := loadDataFromLocalStorage store }
  else
    { state := st, data := loadDataFromLocalStorage store }

/-! Pull path (`checkServerDataUpdates` in `src/utils/storage.ts`). -/

/-- Value lookup in a JS `Map` built with `new Map(entries)`: a later
entry for the same key overrides an earlier one. -/
def mapLookup (entries : List (String × Int)) (k : String) : Option Int :=
  match entries with
  | [] => none
  | (k', v) :: rest =>
    match mapLookup rest k with
    | some v' => some v'
    | none => if k' = k then some v else none

/-- Key-membership test of a JS `Map` built from `entries`. -/
def mapHas (entries : List (String × Int)) (k : String) : Bool :=
  entries.any (fun e => e.1 == k)

/-- First loop of the notes check in `checkServerDataUpdates`:
`if (!localTime || serverTime > localTime)` — some server note is absent
locally, or the local note's `updatedAt` is exactly the epoch (a
millisecond value of 0 is falsy in JS, so `!localTime` fires for it just
as for an absent entry), or the server copy carries a strictly newer
`updatedAt` than the local note of the same id. -/
def notesNeedUpdate (serverNotes : List StoredNote) (localNotes : List Note) : Bool :=
  let serverMap := serverNotes.map (fun n => (n.id, n.updatedAt.millis))
  let localMap := localNotes.map (fun n => (n.id, n.updatedAt))
  serverNotes.any (fun n =>
    match mapLookup localMap n.id with
    | none => true
    | some localTime =>
      decide (localTime = 0) ||
      decide ((mapLookup serverMap n.id).getD n.updatedAt.millis > localTime))

/-- Second loop of the notes check: some local note id is absent from the
server map (remotely deleted). -/
def notesDeletedRemotely (serverNotes : List StoredNote) (localNotes : List Note) : Bool :=
  let serverMap := serverNotes.map (fun n => (n.id, n.updatedAt.millis))
  localNotes.any (fun n => !mapHas serverMap n.id)

/-- Combined condition under which the notes check of
`checkServerDataUpdates` flags an update (the second loop only runs when
the first found nothing, so the net effect is a disjunction). -/
def notesUpdateTrigger (serverNotes : List StoredNote) (localNotes : List Note) : Bool :=
  notesNeedUpdate serverNotes localNotes || notesDeletedRemotely serverNotes localNotes

/-- Insertion step of the stable sort by id. -/
def insertById (c : Category) : List Category → List Category
  | [] => [c]
  | d :: rest => if c.id < d.id then c :: d :: rest else d :: insertById c rest

/-- Model of `categories.sort((a, b) => a.id.localeCompare(b.id))`: a
sort of the category list by id. -/
def sortById : List Category → List Category
  | [] => []
  | c :: rest => insertById c (sortById rest)

/-- Categories check of `checkServerDataUpdates`: the two collections,
each sorted by id, are compared for deep equality (the source compares
their `JSON.stringify` renderings, which coincide for equally-shaped
records exactly when the sorted lists are equal field-for-field). -/
def categoriesDiffer (serverCategories localCategories : List Category) : Bool :=
  decide (sortById serverCategories ≠ sortById localCategories)

/-- Result of a pull: the new localStorage content and the payload handed
to the registered UI callback, when any. -/
structure CheckResult where
  store : LocalStore
  callbackPayload : Option PartialAppState
deriving Repr

/-- Embedding of `checkServerDataUpdates` (`src/utils/storage.ts`): no-op
unless in server mode, online, and a data-update callback is registered.
Otherwise, with the freshly fetched `serverNotes`/`serverCategories` (the
fetch is assumed to have succeeded; a failed fetch is logged and skipped),
compare against localStorage. If the notes check triggers, the whole
revived server notes collection is adopted; if the sorted categories
differ, the sorted server categories collection is adopted (the source
assigns the array that `Array.prototype.sort` sorted in place). When any
update was found, `updatedData` — holding only the adopted fields — is
written to localStorage via `saveDataToLocalStorage` and passed to the
callback. -/
def checkServerDataUpdates (st : SyncState) (hasCallback : Bool) (store : LocalStore)
    (serverNotes : List StoredNote) (serverCategories : List Category) : CheckResult :=
  if !st.useServerStorage || !st.isOnline || !hasCallback then
    { store := store, callbackPayload := none }
  else
    let localData := loadDataFromLocalStorage store
    let notesUpd : Option (List Note) :=
      match localData.notes with
      | some localNotes =>
        if notesUpdateTrigger serverNotes localNotes then
          some (serverNotes.map reviveNote)
        else none
      | none => none
    let catsUpd : Option (List Category) :=
      match localData.categories with
      | some localCats =>
        if categoriesDiffer serverCategories localCats then
          some (sortById serverCategories)
        else none
      | none => none
    if notesUpd.isSome || catsUpd.isSome then
      let updatedData : PartialAppState := { notes := notesUpd, categories := catsUpd }
      { store := saveDataToLocalStorage updatedData store
      , callbackPayload := some updatedData }
    else
      { store := store, callbackPayload := none }

/-! State-update handlers of `src/App.tsx`. -/

/-- Slice of the React component state the handlers below read and write. -/
structure AppUIState where
  notes : List Note
  categories : List Category
  selectedNoteId : Option String
  selectedCategory : Option String
deriving Repr, DecidableEq

/-- Fields the editor passes to `handleUpdateNote` as `Partial<Note>`
(title/content/tag/attachment updates); an absent field is `none`. -/
structure NoteUpdates where
  title : Option String := none
  content : Option String := none
  tags : Option (List String) := none
  attachments : Option (List Attachment) := none
deriving Repr, DecidableEq

/-- Spread `{ ...note, ...updates }` for the fields of `NoteUpdates`. -/
def applyNoteUpdates (n : Note) (u : NoteUpdates) : Note :=
  { n with
    title := u.title.getD n.title
    content := u.content.getD n.content
    tags := u.tags.getD n.tags
    attachments := u.attachments.getD n.attachments }

/-- Embedding of `handleUpdateNote` (`src/App.tsx`): apply the partial
update to the matching note and stamp `updatedAt` with the current time
(`new Date()`). -/
def handleUpdateNote (noteId : String) (updates : NoteUpdates) (now : Int)
    (st : AppUIState) : AppUIState :=
  { st with
    notes := st.notes.map (fun n =>
      if n.id = noteId then { applyNoteUpdates n updates with updatedAt := now } else n) }

/-- Embedding of `handleDeleteCategory` (`src/App.tsx`):
`defaultCategoryId` is `state.categories[0]?.id || '1'` — the id of the
first element of the *pre-deletion* array, falling back to `'1'` when the
array is empty or that id is the empty string (JS `||`). The category is
filtered out, member notes are reassigned to `defaultCategoryId` with no
`updatedAt` stamp, and a matching selection is cleared. -/
def handleDeleteCategory (categoryId : String) (st : AppUIState) : AppUIState :=
  let defaultCategoryId :=
    match st.categories.head? with
    | some c => if c.id = "" then "1" else c.id
    | none => "1"
  { st with
    categories := st.categories.filter (fun c => c.id ≠ categoryId)
    notes := st.notes.map (fun n =>
      if n.category = categoryId then { n with category := defaultCategoryId } else n)
    selectedCategory :=
      if st.selectedCategory = some categoryId then none else st.selectedCategory }

/-- JS `array.splice(i, 1)`: remove the element at index `i` (clamping
out-of-range indices to a no-op). -/
def spliceRemove {α : Type} : Nat → List α → List α
  | _, [] => []
  | 0, _ :: t => t
  | i + 1, h :: t => h :: spliceRemove i t

/-- JS `array.splice(j, 0, x)`: insert `x` at index `j` (appending when
`j` is past the end). -/
def spliceInsert {α : Type} (x : α) : Nat → List α → List α
  | _, [] => [x]
  | 0, l => x :: l
  | j + 1, h :: t => h :: spliceInsert x j t

/-- The `newNotes.map((note, index) => ({ ...note, order: index,
updatedAt: new Date() }))` pass of the note-reorder branch of
`handleDragEnd`, with `i` the running index. -/
def renumberNotes (now : Int) : Nat → List Note → List Note
  | _, [] => []
  | i, n :: rest => { n with order := (i : Int), updatedAt := now } :: renumberNotes now (i + 1) rest

/-- Embedding of the note-reorder branch of `handleDragEnd`
(`src/App.tsx`): locate both notes by id (JS `findIndex`, `-1` becoming
`none`); when both are found and distinct, splice the dragged note out of
its slot and into the target slot, then renumber `order` and stamp every
note's `updatedAt`. -/
def handleDragEndReorderNotes (activeNoteId overNoteId : String) (now : Int)
    (st : AppUIState) : AppUIState :=
  match st.notes.findIdx? (fun n => n.id = activeNoteId),
        st.notes.findIdx? (fun n => n.id = overNoteId) with
  | some activeIndex, some overIndex =>
    if activeIndex = overIndex then st
    else
      match st.notes[activeIndex]? with
      | some reorderedNote =>
        { st with
          notes := renumberNotes now 0
            (spliceInsert reorderedNote overIndex (spliceRemove activeIndex st.notes)) }
      | none => st
  | _, _ => st

/-- Embedding of the note-to-category branch of `handleDragEnd`
(`src/App.tsx`): when the dragged note exists and is not already in the
target category, set its category and stamp its `updatedAt`. -/
def handleDragEndNoteToCategory (noteId targetCategoryId : String) (now : Int)
    (st : AppUIState) : AppUIState :=
  match st.notes.find? (fun n => n.id = noteId) with
  | some currentNote =>
    if currentNote.category ≠ targetCategoryId then
      { st with
        notes := st.notes.map (fun n =>
          if n.id = noteId then { n with category := targetCategoryId, updatedAt := now } else n) }
    else st
  | none => st

/-! RemoteStore client (`src/utils/api.ts`). -/

/-- JS `String.prototype.includes`: substring containment. -/
def containsSubstr (s pat : String) : Bool :=
  decide (List.IsInfix pat.toList s.toList)

/-- Authorization header that `apiRequest` (`src/utils/api.ts`) attaches
to a request: when a token is stored in localStorage and the endpoint is
not a login endpoint (`!endpoint.includes('/auth/login')`), the header is
`Bearer <token>`; otherwise no Authorization header is sent. -/
def apiRequestAuthHeader (endpoint : String) (token : Option String) : Option String :=
  match token with
  | some t =>
    if !containsSubstr endpoint "/auth/login" then some ("Bearer " ++ t) else none
  | none => none

/-- Endpoint used by `healthAPI.check`, which goes through `apiRequest`. -/
def healthEndpoint : String := "/health"

/-- Endpoints of the notes/categories/upload APIs that go through
`apiRequest` (`notesAPI`, `categoriesAPI`, `uploadAPI.deleteFile`,
`healthAPI`). `uploadAPI.uploadFile` is the one request issued with a raw
`fetch` and carries no Authorization header at all. -/
def apiRequestEndpoints (noteId filename : String) : List String :=
  [ "/notes", "/notes/" ++ noteId ++ "/order", "/notes/" ++ noteId ++ "/category"
  , "/notes/reorder", "/categories", "/categories/reorder"
  , "/upload/" ++ filename, healthEndpoint ]

/-- Authorization header of `uploadAPI.uploadFile`, which bypasses
`apiRequest` and calls `fetch` with only the multipart body. -/
def uploadFileAuthHeader (_token : Option String) : Option String := none

/-! Concrete fixtures used by witnesses and counterexamples. -/

/-- Sample note in a given category with a given `updatedAt`. -/
def noteInCat (i cat : String) (t : Int) : Note :=
  { id := i, title := "note " ++ i, content := "body " ++ i, tags := []
  , category := cat, attachments := [], order := 0, createdAt := 0, updatedAt := t }

/-- Sample note in category `"1"`. -/
def noteFx (i : String) (t : Int) : Note := noteInCat i "1" t

/-- Sample server-side (wire format) note; its title differs from the
local `noteFx` note with the same id. -/
def storedFx (i : String) (t : Int) : StoredNote :=
  { id := i, title := "remote " ++ i, content := "body " ++ i, tags := []
  , category := "1", attachments := [], order := 0
  , createdAt := ⟨0⟩, updatedAt := ⟨t⟩ }

/-- Sample categories. -/
def catFx : Category := { id := "1", name := "default", color := "#2196F3", order := 0 }

/-- Second sample category. -/
def catFx2 : Category := { id := "2", name := "work", color := "#4CAF50", order := 1 }

/-- Engine state in server mode, online, with no pending changes. -/
def stOnline : SyncState :=
  { useServerStorage := true, isOnline := true, pendingChanges := 0
  , lastSyncTime := 0, forceSyncTimer := none }

/-- Engine state in server mode, offline. -/
def stOffline : SyncState :=
  { useServerStorage := true, isOnline := false, pendingChanges := 0
  , lastSyncTime := 0, forceSyncTimer := none }

/-- Engine state in local mode. -/
def stLocal : SyncState :=
  { useServerStorage := false, isOnline := true, pendingChanges := 0
  , lastSyncTime := 0, forceSyncTimer := none }

/-- Sample partial state holding one note and one category. -/
def dFx : PartialAppState :=
  { notes := some [noteFx "a" 5], categories := some [catFx] }

/-- Local notes for the pull fixtures: `"a"` is newer locally (10),
`"b"` is older locally (5). -/
def localNotesFx : List Note := [noteFx "a" 10, noteFx "b" 5]

/-- Server notes for the pull fixtures: `"a"` is older remotely (5),
`"b"` is newer remotely (10). -/
def serverNotesFx : List StoredNote := [storedFx "a" 5, storedFx "b" 10]

/-- localStorage fixture holding `localNotesFx` and `[catFx]`. -/
def storeFx : LocalStore :=
  saveDataToLocalStorage { notes := some localNotesFx, categories := some [catFx] } none

/-- UI state whose only note lives in the first category. -/
def uiFxFirst : AppUIState :=
  { notes := [noteInCat "a" "1" 10], categories := [catFx, catFx2]
  , selectedNoteId := none, selectedCategory := none }

/-- UI state whose only note lives in the second category. -/
def uiFxSecond : AppUIState :=
  { notes := [noteInCat "a" "2" 10], categories := [catFx, catFx2]
  , selectedNoteId := none, selectedCategory := none }

/-- UI state with two notes, used by the drag-reorder witness. -/
def uiFxTwoNotes : AppUIState :=
  { notes := [noteInCat "a" "1" 3, noteInCat "b" "1" 4], categories := [catFx]
  , selectedNoteId := none, selectedCategory := none }

/-! Theorems: serialization layer. -/

theorem reviveNote_serializeNote (n : Note) : reviveNote (serializeNote n) = n := by
  cases n; rfl

theorem revive_serialize_list (ns : List Note) :
    (ns.map serializeNote).map reviveNote = ns := by
  induction ns with
  | nil => rfl
  | cons n rest ih => simp [reviveNote_serializeNote, ih]

theorem load_after_save (d : PartialAppState) (store : LocalStore) :
    loadDataFromLocalStorage (saveDataToLocalStorage d store) = d := by
  cases d with
  | mk notes categories selectedNoteId selectedCategory =>
    simp only [saveDataToLocalStorage, loadDataFromLocalStorage, serializeData]
    cases notes with
    | none => rfl
    | some ns => simp [revive_serialize_list ns]

/-! Helper lemmas about the push path. -/

theorem syncToServer_not_ready (st : SyncState) (store : LocalStore) (now : Int)
    (apiOk : Bool) (h : st.useServerStorage = false ∨ st.isOnline = false) :
    syncToServer st store now apiOk = { state := st, calls := [], result := .ok () } := by
  rcases h with h | h <;> simp [syncToServer, h]

theorem syncToServer_online (st : SyncState) (store : LocalStore) (now : Int)
    (apiOk : Bool) (hs : st.useServerStorage = true) (ho : st.isOnline = true) :
    syncToServer st store now apiOk =
      (let localData := loadDataFromLocalStorage store
       let calls :=
         (match localData.notes with
          | some ns => [RemoteCall.saveNotes ns]
          | none => []) ++
         (match localData.categories with
          | some cs => [RemoteCall.saveCategories cs]
          | none => [])
       if apiOk || calls.isEmpty then
         { state := { st with pendingChanges := 0, lastSyncTime := now }
         , calls := calls, result := .ok () }
       else
         { state := st, calls := calls, result := .error .pushFailed }) := by
  simp [syncToServer, hs, ho]

/-! Theorem for claim C10. -/

/-- C10: in local mode, `loadData` after `saveData d` returns exactly `d`,
note dates revived through their ISO-string serialization; the local write
replaces the whole `flatnotes-data` value, so any field absent from `d`
(and any stale content of an earlier save) is absent from the result. -/
theorem c10_local_save_load_roundtrip
    (d : PartialAppState) (st : SyncState) (store : LocalStore) (now : Int)
    (apiOk fetchOk : Bool) (serverNotes : List StoredNote)
    (serverCategories : List Category)
    (hlocal : st.useServerStorage = false) :
    (loadData (saveData d st store now apiOk).state (saveData d st store now apiOk).store
      serverNotes serverCategories fetchOk).data = d := by
  simp [saveData, hlocal, loadData, load_after_save]

/-- Witness for C10 at a concrete input: a previously stored value holding
notes and categories is fully replaced by a save of a categories-free
partial state. -/
theorem c10_local_save_load_roundtrip_witness :
    stLocal.useServerStorage = false ∧
    (loadData (saveData { notes := some [noteFx "a" 5] } stLocal storeFx 0 true).state
      (saveData { notes := some [noteFx "a" 5] } stLocal storeFx 0 true).store
      [] [] true).data = { notes := some [noteFx "a" 5] } :=
  ⟨rfl, c10_local_save_load_roundtrip { notes := some [noteFx "a" 5] } stLocal storeFx 0
    true true [] [] rfl⟩

/-! Theorem for claim C3. -/

/-- C3: every push reads the current data back from localStorage and sends
the complete notes and categories collections found there (never diffs);
on success `pendingChanges` becomes 0 and `lastSyncTime` becomes the push
time; when a RemoteStore call fails, both counters are left exactly as
they were and the error is rethrown. -/
theorem c3_syncToServer_full_snapshot
    (st : SyncState) (store : LocalStore) (now : Int) (apiOk : Bool)
    (hs : st.useServerStorage = true) (ho : st.isOnline = true) :
    (∀ ns, (loadDataFromLocalStorage store).notes = some ns →
      RemoteCall.saveNotes ns ∈ (syncToServer st store now apiOk).calls) ∧
    (∀ cs, (loadDataFromLocalStorage store).categories = some cs →
      RemoteCall.saveCategories cs ∈ (syncToServer st store now apiOk).calls) ∧
    (∀ c ∈ (syncToServer st store now apiOk).calls,
      (∃ ns, (loadDataFromLocalStorage store).notes = some ns ∧
        c = RemoteCall.saveNotes ns) ∨
      (∃ cs, (loadDataFromLocalStorage store).categories = some cs ∧
        c = RemoteCall.saveCategories cs)) ∧
    (apiOk = true →
      (syncToServer st store now apiOk).state.pendingChanges = 0 ∧
      (syncToServer st store now apiOk).state.lastSyncTime = now ∧
      (syncToServer st store now apiOk).result = .ok ()) ∧
    (apiOk = false → (syncToServer st store now apiOk).calls ≠ [] →
      (syncToServer st store now apiOk).state = st ∧
      (syncToServer st store now apiOk).result = .error .pushFailed) := by
  rw [syncToServer_online st store now apiOk hs ho]
  rcases hn : (loadDataFromLocalStorage store).notes with _ | ns <;>
    rcases hc : (loadDataFromLocalStorage store).categories with _ | cs <;>
    cases apiOk <;> simp [hn, hc]

/-- Witness for C3 at a concrete input: a successful push of the fixture
store sends its notes and categories and resets the counters. -/
theorem c3_syncToServer_full_snapshot_witness :
    stOnline.useServerStorage = true ∧ stOnline.isOnline = true ∧
    RemoteCall.saveNotes localNotesFx ∈ (syncToServer stOnline storeFx 777 true).calls ∧
    (syncToServer stOnline storeFx 777 true).state.pendingChanges = 0 ∧
    (syncToServer stOnline storeFx 777 true).state.lastSyncTime = 777 := by
  have h := c3_syncToServer_full_snapshot stOnline storeFx 777 true rfl rfl
  refine ⟨rfl, rfl, ?_, h.2.2.2.1 rfl |>.1, h.2.2.2.1 rfl |>.2.1⟩
  exact h.1 localNotesFx (by rw [storeFx, load_after_save])

/-! Theorem for claim C9. -/

/-- C9: `forceSyncToServer` rejects with the not-remote-mode error when
server storage is off, with the offline error when connectivity is down,
and otherwise performs exactly the same push as the background path
(`syncToServer`), propagating a push failure to the caller; it errors in
no other case. -/
theorem c9_forceSyncToServer_spec
    (st : SyncState) (store : LocalStore) (now : Int) (apiOk : Bool) :
    (st.useServerStorage = false →
      (forceSyncToServer st store now apiOk).result = .error .notRemoteMode) ∧
    (st.useServerStorage = true → st.isOnline = false →
      (forceSyncToServer st store now apiOk).result = .error .offline) ∧
    (st.useServerStorage = true → st.isOnline = true →
      forceSyncToServer st store now apiOk = syncToServer st store now apiOk) ∧
    ((∃ e, (forceSyncToServer st store now apiOk).result = .error e) ↔
      (st.useServerStorage = false ∨ st.isOnline = false ∨
        (apiOk = false ∧ (forceSyncToServer st store now apiOk).calls ≠ []))) := by
  cases hs : st.useServerStorage with
  | false => simp [forceSyncToServer, hs]
  | true =>
    cases ho : st.isOnline with
    | false => simp [forceSyncToServer, hs, ho]
    | true =>
      simp only [forceSyncToServer, hs, ho, Bool.not_true, Bool.false_eq_true,
        IsEmpty.forall_iff, forall_const, if_false, implies_true, true_and]
      rw [syncToServer_online st store now apiOk hs ho]
      rcases hn : (loadDataFromLocalStorage store).notes with _ | ns <;>
        rcases hc : (loadDataFromLocalStorage store).categories with _ | cs <;>
        cases apiOk <;> simp [hn, hc]

/-- Witness for C9 at concrete inputs: offline forcing fails with the
offline error, and a failing push against a non-empty store propagates
the push failure. -/
theorem c9_forceSyncToServer_spec_witness :
    (forceSyncToServer stOffline storeFx 0 true).result = .error .offline ∧
    (∃ e, (forceSyncToServer stOnline storeFx 0 false).result = .error e) := by
  constructor
  · exact (c9_forceSyncToServer_spec stOffline storeFx 0 true).2.1 rfl rfl
  · exact ((c9_forceSyncToServer_spec stOnline storeFx 0 false).2.2.2).2
      (Or.inr (Or.inr ⟨rfl, by decide⟩))

/-! Theorems for claim C2. -/

/-- C2 counterexample: the claim says a failure of the immediate push is
caught and logged and not propagated to the `saveData` caller. In the
source, `syncToServer` logs and then rethrows, and `saveData` awaits it
outside any try/catch, so the rejection reaches the caller: with nine
changes already pending (the tenth save trips `MAX_PENDING_CHANGES`) and
a failing RemoteStore, `saveData` itself rejects with the push failure. -/
theorem c2_push_failure_propagates_counterexample :
    (saveData dFx
      { useServerStorage := true, isOnline := true, pendingChanges := 9
      , lastSyncTime := 0, forceSyncTimer := none }
      storeFx 1000 false).result = .error .pushFailed := by
  rfl

/-- C2 amended: on every `saveData` in server mode while online, the
localStorage write happens first and unconditionally (the push reads the
freshly written store), `pendingChanges` is incremented by exactly 1, the
debounce timer is cleared, and a push is performed immediately exactly
when the incremented count reaches `MAX_PENDING_CHANGES` or more than
`AUTO_SYNC_INTERVAL` has passed since the last sync — any failure of that
immediate push being logged and then PROPAGATED to the caller (not
swallowed); otherwise the 5-second debounce timer is re-armed from `now`,
so a later `saveData` restarts it. -/
theorem c2_saveData_push_policy
    (d : PartialAppState) (st : SyncState) (store : LocalStore) (now : Int)
    (apiOk : Bool) (hs : st.useServerStorage = true) (ho : st.isOnline = true) :
    (saveData d st store now apiOk).store = saveDataToLocalStorage d store ∧
    ((st.pendingChanges + 1 ≥ SYNC_CONFIG.MAX_PENDING_CHANGES ∨
      now - st.lastSyncTime > SYNC_CONFIG.AUTO_SYNC_INTERVAL) →
      (saveData d st store now apiOk).state =
        (syncToServer
          { st with pendingChanges := st.pendingChanges + 1, forceSyncTimer := none }
          (saveDataToLocalStorage d store) now apiOk).state ∧
      (saveData d st store now apiOk).calls =
        (syncToServer
          { st with pendingChanges := st.pendingChanges + 1, forceSyncTimer := none }
          (saveDataToLocalStorage d store) now apiOk).calls ∧
      (saveData d st store now apiOk).result =
        (syncToServer
          { st with pendingChanges := st.pendingChanges + 1, forceSyncTimer := none }
          (saveDataToLocalStorage d store) now apiOk).result) ∧
    (¬(st.pendingChanges + 1 ≥ SYNC_CONFIG.MAX_PENDING_CHANGES ∨
       now - st.lastSyncTime > SYNC_CONFIG.AUTO_SYNC_INTERVAL) →
      (saveData d st store now apiOk).state =
        { st with pendingChanges := st.pendingChanges + 1
                , forceSyncTimer := some (now + SYNC_CONFIG.FORCE_SYNC_DELAY) } ∧
      (saveData d st store now apiOk).calls = [] ∧
      (saveData d st store now apiOk).result = .ok ()) ∧
    (apiOk = false → (saveData d st store now apiOk).calls ≠ [] →
      (saveData d st store now apiOk).result = .error .pushFailed) := by
  have hcond : (st.useServerStorage && st.isOnline) = true := by rw [hs, ho]; rfl
  by_cases hnowc : (st.pendingChanges + 1 ≥ SYNC_CONFIG.MAX_PENDING_CHANGES ∨
      now - st.lastSyncTime > SYNC_CONFIG.AUTO_SYNC_INTERVAL)
  · have hb : (decide (st.pendingChanges + 1 ≥ SYNC_CONFIG.MAX_PENDING_CHANGES) ||
        decide (now - st.lastSyncTime > SYNC_CONFIG.AUTO_SYNC_INTERVAL)) = true := by
      rcases hnowc with h | h <;> simp [h]
    refine ⟨?_, fun _ => ?_, fun hn => absurd hnowc hn, fun hfail hcalls => ?_⟩
    · simp [saveData, hcond, hb]
    · simp [saveData, hcond, hb]
    · simp only [saveData, hcond, if_true, hb] at hcalls ⊢
      rw [syncToServer_online
        { st with pendingChanges := st.pendingChanges + 1, forceSyncTimer := none }
        (saveDataToLocalStorage d store) now apiOk hs ho] at hcalls ⊢
      rcases hln : (loadDataFromLocalStorage (saveDataToLocalStorage d store)).notes
          with _ | ns <;>
        rcases hlc : (loadDataFromLocalStorage (saveDataToLocalStorage d store)).categories
          with _ | cs <;>
        simp [hfail, hln, hlc] at hcalls ⊢
  · have hb : (decide (st.pendingChanges + 1 ≥ SYNC_CONFIG.MAX_PENDING_CHANGES) ||
        decide (now - st.lastSyncTime > SYNC_CONFIG.AUTO_SYNC_INTERVAL)) = false := by
      push_neg at hnowc
      simp [hnowc.1, hnowc.2]
    refine ⟨?_, fun h => absurd h hnowc, fun _ => ?_, fun hfail hcalls => ?_⟩
    · simp [saveData, hcond, hb]
    · simp [saveData, hcond, hb]
    · exfalso
      apply hcalls
      simp [saveData, hcond, hb]

/-- Witness for C2 at concrete inputs: a quiet save (1 pending, recent
sync) arms the 5s debounce timer and issues no call. -/
theorem c2_saveData_push_policy_witness :
    stOnline.useServerStorage = true ∧ stOnline.isOnline = true ∧
    ¬(stOnline.pendingChanges + 1 ≥ SYNC_CONFIG.MAX_PENDING_CHANGES ∨
      (20000 : Int) - stOnline.lastSyncTime > SYNC_CONFIG.AUTO_SYNC_INTERVAL) ∧
    (saveData dFx stOnline storeFx 20000 true).state =
      { stOnline with pendingChanges := 1, forceSyncTimer := some 25000 } ∧
    (saveData dFx stOnline storeFx 20000 true).calls = [] := by
  have h := c2_saveData_push_policy dFx stOnline storeFx 20000 true rfl rfl
  have hq : ¬(stOnline.pendingChanges + 1 ≥ SYNC_CONFIG.MAX_PENDING_CHANGES ∨
      (20000 : Int) - stOnline.lastSyncTime > SYNC_CONFIG.AUTO_SYNC_INTERVAL) := by
    decide
  refine ⟨rfl, rfl, hq, ?_, (h.2.2.1 hq).2.1⟩
  rw [(h.2.2.1 hq).1]
  decide

/-! Theorem for claim C4. -/

/-- C4: the spec requires every offline save to be recorded toward later
delivery (`pendingChanges` increasing) and a reconnect to trigger exactly
one push. In the source the offline branch of `saveData` is empty, so the
counter stays at 0, and the `online` listener only schedules its delayed
push when `pendingChanges > 0`: after an offline save nothing is ever
pushed on reconnect. Evaluated at the failing input: one `saveData` in
server mode while offline writes localStorage but leaves `pendingChanges`
at 0 and issues no call, and the subsequent online transition schedules no
push. -/
theorem c4_offline_saves_never_delivered :
    (saveData dFx stOffline storeFx 1000 true).state.pendingChanges = 0 ∧
    (saveData dFx stOffline storeFx 1000 true).calls = [] ∧
    (saveData dFx stOffline storeFx 1000 true).store = saveDataToLocalStorage dFx storeFx ∧
    (handleOnlineEvent (saveData dFx stOffline storeFx 1000 true).state).2 = false := by
  refine ⟨rfl, rfl, rfl, rfl⟩

/-! Helper lemma about the pull path. -/

theorem checkServerDataUpdates_ready (st : SyncState) (store : LocalStore)
    (serverNotes : List StoredNote) (serverCategories : List Category)
    (hs : st.useServerStorage = true) (ho : st.isOnline = true) :
    checkServerDataUpdates st true store serverNotes serverCategories =
      (let localData := loadDataFromLocalStorage store
       let notesUpd : Option (List Note) :=
         match localData.notes with
         | some localNotes =>
           if notesUpdateTrigger serverNotes localNotes then
             some (serverNotes.map reviveNote)
           else none
         | none => none
       let catsUpd : Option (List Category) :=
         match localData.categories with
         | some localCats =>
           if categoriesDiffer serverCategories localCats then
             some (sortById serverCategories)
           else none
         | none => none
       if notesUpd.isSome || catsUpd.isSome then
         let updatedData : PartialAppState := { notes := notesUpd, categories := catsUpd }
         { store := saveDataToLocalStorage updatedData store
         , callbackPayload := some updatedData }
       else
         { store := store, callbackPayload := none }) := by
  simp [checkServerDataUpdates, hs, ho]

/-! Theorems for claim C1. -/

/-- C1 counterexample: the claim says that after a pull the local copy of
a note equals the remote copy iff the remote `updatedAt` is strictly
newer, and is otherwise unchanged. In the fixture, local note `"a"` is
newer locally (10 vs 5), yet because the *other* note `"b"` is newer
remotely the code adopts the whole remote collection, so `"a"` is
replaced by its older remote version all the same. -/
theorem c1_counterexample_whole_collection_replaced :
    (5 : Int) ≤ 10 ∧
    (loadDataFromLocalStorage
      (checkServerDataUpdates stOnline true storeFx serverNotesFx [catFx]).store).notes =
      some [reviveNote (storedFx "a" 5), reviveNote (storedFx "b" 10)] ∧
    (loadDataFromLocalStorage storeFx).notes = some [noteFx "a" 10, noteFx "b" 5] ∧
    reviveNote (storedFx "a" 5) ≠ noteFx "a" 10 := by
  decide

/-- C1 amended: the pull is gated on the notes collection as a whole, not
per note. With categories unchanged: if some remote note is absent
locally or strictly newer, or some local note carries an epoch-0
`updatedAt` (falsy in JS, treated like an absent entry), or some local
note is remotely deleted, the entire revived remote notes collection
replaces the local one (so a local note is overwritten by the remote
copy even when the remote copy is not newer); only when no note triggers
the check is the local store left untouched. Replacement is by whole
note objects, never a field merge. -/
theorem c1_pull_notes_policy
    (st : SyncState) (store : LocalStore) (serverNotes : List StoredNote)
    (serverCategories : List Category) (localNotes : List Note)
    (hs : st.useServerStorage = true) (ho : st.isOnline = true)
    (hl : (loadDataFromLocalStorage store).notes = some localNotes)
    (hcats : ∀ localCats, (loadDataFromLocalStorage store).categories = some localCats →
      categoriesDiffer serverCategories localCats = false) :
    (notesUpdateTrigger serverNotes localNotes = true →
      (loadDataFromLocalStorage
        (checkServerDataUpdates st true store serverNotes serverCategories).store).notes =
        some (serverNotes.map reviveNote)) ∧
    (notesUpdateTrigger serverNotes localNotes = false →
      (checkServerDataUpdates st true store serverNotes serverCategories).store = store) := by
  rw [checkServerDataUpdates_ready st store serverNotes serverCategories hs ho]
  simp only [hl]
  have hcnone : (match (loadDataFromLocalStorage store).categories with
      | some localCats =>
        if categoriesDiffer serverCategories localCats then
          some (sortById serverCategories)
        else none
      | none => (none : Option (List Category))) = none := by
    rcases hc : (loadDataFromLocalStorage store).categories with _ | lc
    · rfl
    · simp [hcats lc hc]
  rw [hcnone]
  cases htrig : notesUpdateTrigger serverNotes localNotes with
  | true => simp [load_after_save]
  | false => simp

/-- Witness for C1 at the fixture input: note `"b"` being newer remotely
triggers the pull, and the whole revived remote collection lands in
localStorage. -/
theorem c1_pull_notes_policy_witness :
    notesUpdateTrigger serverNotesFx localNotesFx = true ∧
    (loadDataFromLocalStorage
      (checkServerDataUpdates stOnline true storeFx serverNotesFx [catFx]).store).notes =
      some (serverNotesFx.map reviveNote) := by
  refine ⟨by decide, ?_⟩
  exact (c1_pull_notes_policy stOnline storeFx serverNotesFx [catFx] localNotesFx rfl rfl
    (by rw [storeFx, load_after_save]) (by decide)).1 (by decide)

/-! Theorems for claim C5. -/

/-- C5 counterexample: the claim says top-level fields the pull did not
change remain present and unchanged in LocalStore. In the fixture the
pull changes only the notes, yet the write replaces the whole
`flatnotes-data` value with just `{ notes }`, dropping the categories
collection that was stored before. -/
theorem c5_counterexample_unchanged_field_dropped :
    (loadDataFromLocalStorage storeFx).categories = some [catFx] ∧
    categoriesDiffer [catFx] [catFx] = false ∧
    (loadDataFromLocalStorage
      (checkServerDataUpdates stOnline true storeFx serverNotesFx [catFx]).store).categories =
      none := by
  decide

/-- C5 amended: when a pull finds a difference, the engine writes ONLY
the changed top-level fields to LocalStore, replacing the whole stored
value (fields the pull did not change are dropped from LocalStore until
the next full save), and invokes the subscribed callback with exactly
those changed fields — `notes` exactly when the notes check triggered
(absent-locally, epoch-0 local `updatedAt`, strictly-newer remote, or
remotely deleted), `categories` exactly when the sorted collections
differed, never partial note fields; if no check triggers, LocalStore is
not written and the callback is not invoked. -/
theorem c5_pull_write_and_callback
    (st : SyncState) (store : LocalStore) (serverNotes : List StoredNote)
    (serverCategories : List Category) (localNotes : List Note)
    (localCats : List Category)
    (hs : st.useServerStorage = true) (ho : st.isOnline = true)
    (hln : (loadDataFromLocalStorage store).notes = some localNotes)
    (hlc : (loadDataFromLocalStorage store).categories = some localCats) :
    ((notesUpdateTrigger serverNotes localNotes ||
      categoriesDiffer serverCategories localCats) = true →
      (checkServerDataUpdates st true store serverNotes serverCategories).store =
        saveDataToLocalStorage
          { notes :=
              if notesUpdateTrigger serverNotes localNotes then
                some (serverNotes.map reviveNote)
              else none
          , categories :=
              if categoriesDiffer serverCategories localCats then
                some (sortById serverCategories)
              else none } store ∧
      (checkServerDataUpdates st true store serverNotes serverCategories).callbackPayload =
        some
          { notes :=
              if notesUpdateTrigger serverNotes localNotes then
                some (serverNotes.map reviveNote)
              else none
          , categories :=
              if categoriesDiffer serverCategories localCats then
                some (sortById serverCategories)
              else none }) ∧
    ((notesUpdateTrigger serverNotes localNotes ||
      categoriesDiffer serverCategories localCats) = false →
      (checkServerDataUpdates st true store serverNotes serverCategories).store = store ∧
      (checkServerDataUpdates st true store serverNotes serverCategories).callbackPayload =
        none) := by
  rw [checkServerDataUpdates_ready st store serverNotes serverCategories hs ho]
  simp only [hln, hlc]
  cases htrig : notesUpdateTrigger serverNotes localNotes with
  | true => cases hcd : categoriesDiffer serverCategories localCats with
    | true => simp
    | false => simp
  | false => cases hcd : categoriesDiffer serverCategories localCats with
    | true => simp
    | false => simp

/-- Witness for C5 at the fixture input: the notes check triggers, the
categories are equal, and the pull both writes `{ notes }` alone to
localStorage and hands `{ notes }` alone to the callback. -/
theorem c5_pull_write_and_callback_witness :
    (notesUpdateTrigger serverNotesFx localNotesFx ||
      categoriesDiffer [catFx] [catFx]) = true ∧
    (checkServerDataUpdates stOnline true storeFx serverNotesFx [catFx]).store =
      saveDataToLocalStorage { notes := some (serverNotesFx.map reviveNote) } storeFx ∧
    (checkServerDataUpdates stOnline true storeFx serverNotesFx [catFx]).callbackPayload =
      some { notes := some (serverNotesFx.map reviveNote) } := by
  have h := (c5_pull_write_and_callback stOnline storeFx serverNotesFx [catFx]
    localNotesFx [catFx] rfl rfl (by rw [storeFx, load_after_save])
    (by rw [storeFx, load_after_save])).1 (by decide)
  refine ⟨by decide, ?_, ?_⟩
  · rw [h.1]; decide
  · rw [h.2]; decide

/-! Helper lemmas about the drag-reorder primitives. -/

theorem mem_spliceRemove {α : Type} {x : α} :
    ∀ (i : Nat) (l : List α), x ∈ spliceRemove i l → x ∈ l := by
  intro i l
  induction l generalizing i with
  | nil => intro h; simp [spliceRemove] at h
  | cons h t ih =>
    intro hx
    cases i with
    | zero =>
      simp only [spliceRemove] at hx
      exact List.mem_cons_of_mem _ hx
    | succ j =>
      simp only [spliceRemove, List.mem_cons] at hx
      rcases hx with hx | hx
      · exact hx ▸ List.mem_cons_self _ _
      · exact List.mem_cons_of_mem _ (ih j hx)

theorem mem_spliceInsert {α : Type} {x y : α} :
    ∀ (j : Nat) (l : List α), x ∈ spliceInsert y j l → x = y ∨ x ∈ l := by
  intro j l
  induction l generalizing j with
  | nil =>
    intro h
    simp only [spliceInsert, List.mem_singleton] at h
    exact Or.inl h
  | cons h t ih =>
    intro hx
    cases j with
    | zero =>
      simp only [spliceInsert, List.mem_cons] at hx ⊢
      exact hx
    | succ i =>
      simp only [spliceInsert, List.mem_cons] at hx
      rcases hx with hx | hx
      · exact Or.inr (hx ▸ List.mem_cons_self _ _)
      · rcases ih i hx with hx | hx
        · exact Or.inl hx
        · exact Or.inr (List.mem_cons_of_mem _ hx)

theorem mem_renumberNotes {now : Int} {n : Note} :
    ∀ (i : Nat) (l : List Note), n ∈ renumberNotes now i l →
      n.updatedAt = now ∧ ∃ m ∈ l, n.createdAt = m.createdAt := by
  intro i l
  induction l generalizing i with
  | nil => intro h; simp [renumberNotes] at h
  | cons m t ih =>
    intro hx
    simp only [renumberNotes, List.mem_cons] at hx
    rcases hx with hx | hx
    · subst hx
      exact ⟨rfl, ⟨m, List.mem_cons_self m t, rfl⟩⟩
    · obtain ⟨h1, m', hm', h2⟩ := ih (i + 1) hx
      exact ⟨h1, m', List.mem_cons_of_mem _ hm', h2⟩

/-! Theorem for claim C6. -/

/-- C6: the spec says deleting a category reassigns its notes to the
first remaining category in rank order, never orphaning a note. The code
computes `defaultCategoryId` from the *pre-deletion* array, so deleting
the first category reassigns its member notes to the deleted category's
own id. Evaluated at the failing input (categories `"1"`, `"2"`; one note
in `"1"`; delete `"1"`): afterwards the only remaining category is `"2"`
but the note still points at `"1"`, an id no remaining category carries —
the note is orphaned. -/
theorem c6_delete_first_category_orphans_notes :
    (handleDeleteCategory "1" uiFxFirst).categories.map Category.id = ["2"] ∧
    (handleDeleteCategory "1" uiFxFirst).notes.map Note.category = ["1"] ∧
    ((handleDeleteCategory "1" uiFxFirst).notes.all (fun n =>
      (handleDeleteCategory "1" uiFxFirst).categories.any
        (fun c => c.id == n.category))) = false := by
  decide

/-! Theorems for claim C7. -/

/-- C7 counterexample: reassignment caused by deleting a note's category
mutates the note (its category changes) but does not bump `updatedAt`:
deleting category `"2"` moves the note into `"1"` while its `updatedAt`
keeps its old value, so it does not equal the mutation time. -/
theorem c7_counterexample_reassignment_no_bump :
    (handleDeleteCategory "2" uiFxSecond).notes.map Note.category ≠
      uiFxSecond.notes.map Note.category ∧
    (handleDeleteCategory "2" uiFxSecond).notes.map Note.updatedAt =
      uiFxSecond.notes.map Note.updatedAt := by
  decide

/-- C7 amended: title/content/tag/attachment updates, drag reorder and
drag-to-category changes stamp `updatedAt` with the mutation time, and
all of these operations — including the reassignment caused by deleting a
category, which leaves every note's `updatedAt` unchanged — preserve the
invariant `updatedAt >= createdAt`, provided it held before and the
mutation time is not earlier than any note's `createdAt`. -/
theorem c7_mutations_updatedAt_policy
    (st : AppUIState) (now : Int)
    (noteId targetCategoryId deletedCategoryId activeNoteId overNoteId : String)
    (u : NoteUpdates)
    (hinv : ∀ n ∈ st.notes, n.createdAt ≤ n.updatedAt)
    (hnow : ∀ n ∈ st.notes, n.createdAt ≤ now) :
    (∀ n ∈ (handleUpdateNote noteId u now st).notes, n.createdAt ≤ n.updatedAt) ∧
    (∀ n ∈ (handleUpdateNote noteId u now st).notes, n.id = noteId → n.updatedAt = now) ∧
    (∀ n ∈ (handleDragEndReorderNotes activeNoteId overNoteId now st).notes,
      n.createdAt ≤ n.updatedAt) ∧
    ((handleDragEndReorderNotes activeNoteId overNoteId now st).notes ≠ st.notes →
      ∀ n ∈ (handleDragEndReorderNotes activeNoteId overNoteId now st).notes,
        n.updatedAt = now) ∧
    (∀ n ∈ (handleDragEndNoteToCategory noteId targetCategoryId now st).notes,
      n.createdAt ≤ n.updatedAt) ∧
    ((handleDragEndNoteToCategory noteId targetCategoryId now st).notes ≠ st.notes →
      ∀ n ∈ (handleDragEndNoteToCategory noteId targetCategoryId now st).notes,
        n.id = noteId → n.updatedAt = now) ∧
    (∀ n ∈ (handleDeleteCategory deletedCategoryId st).notes,
      n.createdAt ≤ n.updatedAt) ∧
    ((handleDeleteCategory deletedCategoryId st).notes.map Note.updatedAt =
      st.notes.map Note.updatedAt) := by
  have hreorder_cases :
      (handleDragEndReorderNotes activeNoteId overNoteId now st).notes = st.notes ∨
      ∃ x ∈ st.notes, ∃ ai oi,
        (handleDragEndReorderNotes activeNoteId overNoteId now st).notes =
          renumberNotes now 0 (spliceInsert x oi (spliceRemove ai st.notes)) := by
    unfold handleDragEndReorderNotes
    rcases hai : st.notes.findIdx? (fun m => m.id = activeNoteId) with _ | ai
    · simp [hai]
    · rcases hoi : st.notes.findIdx? (fun m => m.id = overNoteId) with _ | oi
      · simp [hai, hoi]
      · by_cases hij : ai = oi
        · simp [hai, hoi, hij]
        · rcases hget : st.notes[ai]? with _ | x
          · simp [hai, hoi, hij, hget]
          · right
            exact ⟨x, List.getElem?_mem hget, ai, oi, by simp [hai, hoi, hij, hget]⟩
  have htocat_cases :
      (handleDragEndNoteToCategory noteId targetCategoryId now st).notes = st.notes ∨
      (handleDragEndNoteToCategory noteId targetCategoryId now st).notes =
        st.notes.map (fun n =>
          if n.id = noteId then { n with category := targetCategoryId, updatedAt := now }
          else n) := by
    unfold handleDragEndNoteToCategory
    rcases hf : st.notes.find? (fun m => m.id = noteId) with _ | cn
    · simp [hf]
    · by_cases hc : cn.category = targetCategoryId
      · simp [hf, hc]
      · simp [hf, hc]
  refine ⟨?_, ?_, ?_, ?_, ?_, ?_, ?_, ?_⟩
  · intro n hn
    simp only [handleUpdateNote, List.mem_map] at hn
    obtain ⟨m, hm, rfl⟩ := hn
    by_cases h : m.id = noteId
    · simpa [h, applyNoteUpdates] using hnow m hm
    · simpa [h] using hinv m hm
  · intro n hn hid
    simp only [handleUpdateNote, List.mem_map] at hn
    obtain ⟨m, hm, rfl⟩ := hn
    by_cases h : m.id = noteId
    · simp [h]
    · simp only [if_neg h] at hid
      exact absurd hid h
  · rcases hreorder_cases with heq | ⟨x, hx, ai, oi, heq⟩
    · rw [heq]; exact hinv
    · rw [heq]
      intro n hn
      obtain ⟨h1, m, hm, h2⟩ := mem_renumberNotes _ _ hn
      have hmem : m ∈ st.notes := by
        rcases mem_spliceInsert _ _ hm with rfl | hm'
        · exact hx
        · exact mem_spliceRemove _ _ hm'
      rw [h1, h2]
      exact hnow m hmem
  · rcases hreorder_cases with heq | ⟨x, hx, ai, oi, heq⟩
    · intro hne; exact absurd heq hne
    · intro _ n hn
      rw [heq] at hn
      exact (mem_renumberNotes _ _ hn).1
  · rcases htocat_cases with heq | heq
    · rw [heq]; exact hinv
    · rw [heq]
      intro n hn
      simp only [List.mem_map] at hn
      obtain ⟨m, hm, rfl⟩ := hn
      by_cases h : m.id = noteId
      · simpa [h] using hnow m hm
      · simpa [h] using hinv m hm
  · rcases htocat_cases with heq | heq
    · intro hne; exact absurd heq hne
    · intro _ n hn hid
      rw [heq] at hn
      simp only [List.mem_map] at hn
      obtain ⟨m, hm, rfl⟩ := hn
      by_cases h : m.id = noteId
      · simp [h]
      · simp only [if_neg h] at hid
        exact absurd hid h
  · intro n hn
    simp only [handleDeleteCategory, List.mem_map] at hn
    obtain ⟨m, hm, rfl⟩ := hn
    by_cases h : m.category = deletedCategoryId
    · simpa [h] using hinv m hm
    · simpa [h] using hinv m hm
  · simp only [handleDeleteCategory, List.map_map]
    apply List.map_congr_left
    intro a _
    by_cases h : a.category = deletedCategoryId <;> simp [h]

/-- Witness for C7 at concrete inputs: with two notes and a valid drag of
`"a"` onto `"b"`, the reorder stamps every note's `updatedAt` with the
mutation time, and a title update stamps the edited note. -/
theorem c7_mutations_updatedAt_policy_witness :
    (∀ n ∈ uiFxTwoNotes.notes, n.createdAt ≤ n.updatedAt) ∧
    (∀ n ∈ uiFxTwoNotes.notes, n.createdAt ≤ (100 : Int)) ∧
    (∀ n ∈ (handleUpdateNote "a" { title := some "edited" } 100 uiFxTwoNotes).notes,
      n.id = "a" → n.updatedAt = 100) ∧
    ((handleDragEndReorderNotes "a" "b" 100 uiFxTwoNotes).notes ≠ uiFxTwoNotes.notes →
      ∀ n ∈ (handleDragEndReorderNotes "a" "b" 100 uiFxTwoNotes).notes,
        n.updatedAt = 100) := by
  have h := c7_mutations_updatedAt_policy uiFxTwoNotes 100 "a" "2" "1" "a" "b"
    { title := some "edited" } (by decide) (by decide)
  exact ⟨by decide, by decide, h.2.1, h.2.2.2.1⟩

/-! Theorems for claim C8. -/

/-- C8 counterexample: the claim says the liveness probe carries no
credential. `healthAPI.check` goes through `apiRequest`, which only
exempts endpoints containing `/auth/login`, so with a token stored the
`GET /health` request does carry the `Authorization: Bearer` header. -/
theorem c8_counterexample_health_carries_bearer :
    apiRequestAuthHeader healthEndpoint (some "tok") = some "Bearer tok" := by
  decide

/-- C8 amended: for every request issued through the shared `apiRequest`
helper while a token is stored, the `Authorization: Bearer` header is
attached iff the endpoint does not contain `/auth/login` — in particular
the liveness probe `/health` does carry the credential (the server simply
does not require it) — while with no token stored no header is attached,
and the multipart upload request, which bypasses `apiRequest`, never
carries one. -/
theorem c8_bearer_attachment_rule (endpoint t : String) :
    (apiRequestAuthHeader endpoint (some t) = some ("Bearer " ++ t) ↔
      containsSubstr endpoint "/auth/login" = false) ∧
    apiRequestAuthHeader healthEndpoint (some t) = some ("Bearer " ++ t) ∧
    apiRequestAuthHeader endpoint none = none ∧
    uploadFileAuthHeader (some t) = none := by
  refine ⟨?_, ?_, rfl, rfl⟩
  · unfold apiRequestAuthHeader
    cases h : containsSubstr endpoint "/auth/login" <;> simp [h]
  · unfold apiRequestAuthHeader
    have : containsSubstr healthEndpoint "/auth/login" = false := by decide
    simp [this]

end Flatnotes
